import Mathlib

/-!
Shallow embedding of `src/class-to-swagger.py`, a utility that converts
textual Scala case-class definitions into Swagger (JSON-Schema-like)
documents.  Strings are modelled as `List Char`; Python functions that can
raise become `Option`- or `Except`-valued Lean functions.

Modelling notes on the two regular expressions of the source:

* `extract_super_type` uses `re.search(r'^(.*)\[.*$', s)`: the group `(.*)`
  is greedy, so when a match exists group 1 is everything before the LAST
  occurrence of `[` in `s`; there is no match exactly when `s` has no `[`.
* `extract_sub_type` uses `re.search(r'^.*\[(.*)\]$', s)`: again the leading
  `.*` is greedy, so a match requires the final character of `s` to be `]`
  with some `[` before it, and group 1 is the segment strictly between the
  LAST `[` and that final `]`.

In Python `.` does not match a newline; the program strips all whitespace
from its input before these functions are ever called (see
`get_class_strings_from_file`, which joins on `str.split()`), so the
embedding treats `.` as matching any character.
-/

namespace ClassToSwagger

/-- Python `str.lower()` restricted to the ASCII identifiers this program
handles. -/
def lower (s : List Char) : List Char := s.map Char.toLower

/-- `is_simple_type` from the source: the switcher dictionary
`{'String': True, 'Char': True, 'Boolean': True}` with default `False`. -/
def is_simple_type (s : List Char) : Bool :=
  if s = "String".data then true
  else if s = "Char".data then true
  else if s = "Boolean".data then true
  else false

/-- `is_number_type` from the source: the switcher dictionary over
`Int`, `Long`, `Float`, `Double` with default `False`. -/
def is_number_type (s : List Char) : Bool :=
  if s = "Int".data then true
  else if s = "Long".data then true
  else if s = "Float".data then true
  else if s = "Double".data then true
  else false

/-- `isArrayType` from the source: the switcher dictionary over
`Array`, `List`, `ArrayBuffer` with default `False`.  (In the source it is
applied to `superType`, which may be Python `None`; `dict.get(None, False)`
is `False`, handled at the call site in `to_property_type_rec`.) -/
def isArrayType (s : List Char) : Bool :=
  if s = "Array".data then true
  else if s = "List".data then true
  else if s = "ArrayBuffer".data then true
  else false

/-- Splits a list at the LAST occurrence of `c`: returns the part strictly
before it and the part strictly after it, or `none` when `c` does not occur.
This is the combinator both greedy regexes of the source reduce to. -/
def splitLast (c : Char) : List Char → Option (List Char × List Char)
  | [] => none
  | a :: rest =>
    match splitLast c rest with
    | some (pre, post) => some (a :: pre, post)
    | none => if a = c then some ([], rest) else none

/-- `extract_super_type` from the source:
`re.search(r'^(.*)\[.*$', s)` — `None` when `s` has no `[`, otherwise the
(greedy) group 1, i.e. everything before the last `[`. -/
def extract_super_type (s : List Char) : Option (List Char) :=
  match splitLast '[' s with
  | none => none
  | some (pre, _) => some pre

/-- `extract_sub_type` from the source:
`re.search(r'^.*\[(.*)\]$', s)` — the source raises
`Exception("Invalid input: No outer type found")` when there is no match
(modelled as `none`), otherwise returns the (greedy) group 1: the segment
between the last `[` and the final `]`. -/
def extract_sub_type (s : List Char) : Option (List Char) :=
  if s.getLast? = some ']' then
    match splitLast '[' s.dropLast with
    | none => none
    | some (_, post) => some post
  else none

/-- The `PropertyType` class hierarchy of the source
(`SimplePropertyType`, `NumberPropertyType`, `ArrayPropertyType`,
`ReferencePropertyType`), each carrying the `required` flag of the common
base class `PropertyType`. -/
inductive PropertyType where
  | simple (type : List Char) (required : Bool)
  | number (type : List Char) (format : Option (List Char)) (required : Bool)
  | array (items : PropertyType) (required : Bool)
  | reference (className : List Char) (required : Bool)
deriving DecidableEq, Repr

/-- The `required` attribute set by the base-class constructor. -/
def PropertyType.required : PropertyType → Bool
  | .simple _ r => r
  | .number _ _ r => r
  | .array _ r => r
  | .reference _ r => r

/-- `SimplePropertyType.__init__`: stores `typeString.lower()` as the type. -/
def SimplePropertyType (typeString : List Char) (required : Bool) : PropertyType :=
  PropertyType.simple (lower typeString) required

/-- `NumberPropertyType.__init__`: looks `typeString.lower()` up in
`_class_type_map`; an unrecognized string defaults to type `number` with no
format. -/
def NumberPropertyType (typeString : List Char) (required : Bool) : PropertyType :=
  let lower_case_type := lower typeString
  if lower_case_type = "int".data then
    PropertyType.number "integer".data (some "int32".data) required
  else if lower_case_type = "long".data then
    PropertyType.number "integer".data (some "int64".data) required
  else if lower_case_type = "float".data then
    PropertyType.number "number".data (some "float".data) required
  else if lower_case_type = "double".data then
    PropertyType.number "number".data (some "double".data) required
  else
    PropertyType.number "number".data none required

/-- `ArrayPropertyType.__init__`. -/
def ArrayPropertyType (items : PropertyType) (required : Bool) : PropertyType :=
  PropertyType.array items required

/-- `ReferencePropertyType.__init__`. -/
def ReferencePropertyType (className : List Char) (required : Bool) : PropertyType :=
  PropertyType.reference className required

/-- `to_property_type` from the source, written with explicit fuel so that
the recursion (Python recurses on the extracted element type string, which
is strictly shorter) is structural and the function computes by reduction.
`none` models the `Exception` raised by `extract_sub_type`.

Structure of the source, mirrored here: `subType` starts as `typeString`
and `required` as `True`; when `superType` is not `None`, `required`
becomes `False` exactly when `superType == 'Option'` and `subType` is
re-assigned to `extract_sub_type(typeString)` (raising on failure).  Then a
single `if/elif` chain runs: `isArrayType(superType)` (always `False` when
`superType` is `None`, hence the array branch only appears below in the
`some` case), then `is_simple_type(subType)`, `is_number_type(subType)`,
else `ReferencePropertyType`.  In the array branch the source recomputes
`listType = extract_sub_type(typeString)`, which equals `subType`. -/
def to_property_type_rec : Nat → List Char → Option PropertyType
  | 0, _ => none
  | fuel + 1, typeString =>
    match extract_super_type typeString with
    | none =>
      if is_simple_type typeString then some (SimplePropertyType typeString true)
      else if is_number_type typeString then some (NumberPropertyType typeString true)
      else some (ReferencePropertyType typeString true)
    | some superType =>
      let required : Bool := if superType = "Option".data then false else true
      match extract_sub_type typeString with
      | none => none
      | some subType =>
        if isArrayType superType then
          match to_property_type_rec fuel subType with
          | none => none
          | some items => some (ArrayPropertyType items required)
        else if is_simple_type subType then some (SimplePropertyType subType required)
        else if is_number_type subType then some (NumberPropertyType subType required)
        else some (ReferencePropertyType subType required)

/-- `to_property_type(typeString)`: the fuel `typeString.length + 1` is
enough for the real recursion, since each recursive call is on a string at
least two characters shorter (`to_property_type_rec_fuel_irrel` below makes
this exact). -/
def to_property_type (typeString : List Char) : Option PropertyType :=
  to_property_type_rec (typeString.length + 1) typeString

/-- The `SwaggerProperty` class: a field name, its resolved type and the
`required` flag passed to the constructor (the assembler passes
`propType.required`). -/
structure SwaggerProperty where
  property_name : List Char
  propertyType : PropertyType
  required : Bool
deriving DecidableEq, Repr

/-- The `SwaggerDoc` class: `type` is the constant `"object"`, `name` the
class name, and the two lists start empty. -/
structure SwaggerDoc where
  type : List Char
  name : List Char
  properties : List SwaggerProperty
  requiredProperties : List (List Char)
deriving DecidableEq, Repr

/-- `SwaggerDoc.__init__(className)`. -/
def SwaggerDoc.new (className : List Char) : SwaggerDoc :=
  ⟨"object".data, className, [], []⟩

/-- `SwaggerDoc.addProperty`: appends the property; when `property.required`
is true also appends its name to `requiredProperties`. -/
def SwaggerDoc.addProperty (doc : SwaggerDoc) (property : SwaggerProperty) : SwaggerDoc :=
  ⟨doc.type, doc.name, doc.properties ++ [property],
    if property.required then doc.requiredProperties ++ [property.property_name]
    else doc.requiredProperties⟩

/-- The two kinds of exception the program can raise while assembling a
document: the `Exception` of `extract_sub_type` (the spec's
MalformedTypeExpression) and the `ValueError`/`IndexError` of
`create_swagger_doc` (the spec's MalformedRecordExpression). -/
inductive SwaggerError where
  | malformedType
  | malformedRecord
deriving DecidableEq, Repr

/-- Splitting a character list at every character satisfying `p`, the
semantics shared by `re.split(r'[(,)]', s)` and Python `str.split(':')`:
consecutive, leading or trailing separators produce empty tokens, and the
result is never the empty list. -/
def splitOnPred (p : Char → Bool) : List Char → List (List Char)
  | [] => [[]]
  | c :: rest =>
    if p c then [] :: splitOnPred p rest
    else
      match splitOnPred p rest with
      | [] => [[c]]
      | t :: ts => (c :: t) :: ts

/-- The delimiter class `[(,)]` of `re.split` in `create_swagger_doc`. -/
def isDelim (c : Char) : Bool := c == '(' || c == ',' || c == ')'

/-- `re.split(r'[(,)]', case_class_string)`. -/
def splitDelims (s : List Char) : List (List Char) := splitOnPred isDelim s

/-- Python `str.split(':')`. -/
def splitColon (s : List Char) : List (List Char) := splitOnPred (fun c => c == ':') s

/-- Python `list.remove(x)`: drops the first occurrence of `x`, or raises
`ValueError` (modelled as `none`) when `x` does not occur. -/
def removeFirst (x : List Char) : List (List Char) → Option (List (List Char))
  | [] => none
  | a :: rest => if a = x then some rest else (removeFirst x rest).map (a :: ·)

/-- `re.sub(r'=.*', '', parameter)`: drops everything from the first `=`
onward (inputs are whitespace-free, see the module comment). -/
def stripDefault (parameter : List Char) : List Char :=
  parameter.takeWhile (fun c => !(c == '='))

/-- The parameter loop of `create_swagger_doc`: for each raw parameter,
strip the default-value suffix, split on `:`, take element 0 as the field
name and element 1 as the type name (fewer than two elements is the
source's `IndexError`), resolve the type (its failure propagates as the
type-expression error) and add the property with
`required = propType.required`. -/
def processParams (result : SwaggerDoc) : List (List Char) → Except SwaggerError SwaggerDoc
  | [] => .ok result
  | parameter :: rest =>
    let parameter_without_defaults := stripDefault parameter
    match splitColon parameter_without_defaults with
    | name :: typeName :: _ =>
      match to_property_type typeName with
      | none => .error .malformedType
      | some propType =>
        processParams (result.addProperty ⟨name, propType, propType.required⟩) rest
    | _ => .error .malformedRecord

/-- `create_swagger_doc(case_class_string)` from the source: split on the
delimiters `(`, `,`, `)`; `remove('')` the first empty token (its
`ValueError` when none exists, and the `IndexError` of `split_contents[0]`
when nothing remains, are the record-expression errors); the first token is
the class name and the rest are the raw parameters. -/
def create_swagger_doc (case_class_string : List Char) : Except SwaggerError SwaggerDoc :=
  match removeFirst [] (splitDelims case_class_string) with
  | none => .error .malformedRecord
  | some [] => .error .malformedRecord
  | some (className :: params) => processParams (SwaggerDoc.new className) params

/-- A document built by any sequence of `addProperty` calls on a document
fresh from `SwaggerDoc.__init__`, the way `create_swagger_doc` builds one. -/
def buildDoc (className : List Char) (props : List SwaggerProperty) : SwaggerDoc :=
  props.foldl SwaggerDoc.addProperty (SwaggerDoc.new className)

end ClassToSwagger

namespace ClassToSwagger

/-- A `splitLast` result of `none` means the character does not occur. -/
theorem splitLast_eq_none {c : Char} {s : List Char} : splitLast c s = none ↔ c ∉ s := by
  induction s with
  | nil => simp [splitLast]
  | cons a rest ih =>
    rw [splitLast]
    cases h : splitLast c rest with
    | none =>
      have hrest : c ∉ rest := ih.mp h
      by_cases hac : a = c
      · subst hac
        simp
      · simp [hac, hrest, Ne.symm hac]
    | some pr =>
      have hrest : c ∈ rest := by
        by_contra hh
        rw [ih.mpr hh] at h
        cases h
      simp [List.mem_cons, hrest]

/-- A successful `splitLast` decomposes the list around the last occurrence:
the returned suffix contains no further occurrence. -/
theorem splitLast_eq_some {c : Char} {s pre post : List Char}
    (h : splitLast c s = some (pre, post)) : s = pre ++ c :: post ∧ c ∉ post := by
  induction s generalizing pre post with
  | nil => simp [splitLast] at h
  | cons a rest ih =>
    rw [splitLast] at h
    cases h2 : splitLast c rest with
    | none =>
      rw [h2] at h
      by_cases hac : a = c
      · rw [if_pos hac] at h
        injection h with h
        injection h with h3 h4
        subst h3
        subst h4
        exact ⟨by rw [hac]; rfl, splitLast_eq_none.mp h2⟩
      · rw [if_neg hac] at h
        cases h
    | some pr =>
      obtain ⟨pre2, post2⟩ := pr
      rw [h2] at h
      injection h with h
      injection h with h3 h4
      obtain ⟨hs, hn⟩ := ih h2
      subst h3
      subst h4
      exact ⟨by rw [hs]; rfl, hn⟩

/-- The super-type regex fails to match exactly when the string has no `[`. -/
theorem extract_super_type_eq_none {s : List Char} :
    extract_super_type s = none ↔ '[' ∉ s := by
  rw [extract_super_type]
  cases h : splitLast '[' s with
  | none => simp [splitLast_eq_none.mp h]
  | some pr =>
    have : '[' ∈ s := by
      by_contra hh
      rw [splitLast_eq_none.mpr hh] at h
      cases h
    simp [this]

/-- A successfully extracted sub-type lies strictly after the last `[`, so it
contains no `[` and is at least two characters shorter than its source. -/
theorem extract_sub_type_eq_some {s t : List Char} (h : extract_sub_type s = some t) :
    '[' ∉ t ∧ t.length + 2 ≤ s.length := by
  rw [extract_sub_type] at h
  split at h
  · rename_i hlast
    cases h2 : splitLast '[' s.dropLast with
    | none => rw [h2] at h; cases h
    | some pr =>
      obtain ⟨pre, post⟩ := pr
      rw [h2] at h
      injection h with h
      obtain ⟨hs, hn⟩ := splitLast_eq_some h2
      rw [h] at hs hn
      have hne : s ≠ [] := by
        intro he
        subst he
        simp at hlast
      have hlen : s.dropLast.length = s.length - 1 := List.length_dropLast s
      have hpos : 1 ≤ s.length := List.length_pos.mpr hne
      have hlen2 : s.dropLast.length = pre.length + 1 + t.length := by
        rw [hs]
        simp [List.length_append]
        omega
      refine ⟨hn, by omega⟩
  · cases h

/-- On a bracket-free string, the resolver (at any positive fuel) classifies
the whole string as a leaf. -/
theorem to_property_type_rec_leaf {fuel : Nat} {s : List Char} (h : '[' ∉ s) :
    to_property_type_rec (fuel + 1) s =
      some (if is_simple_type s then SimplePropertyType s true
            else if is_number_type s then NumberPropertyType s true
            else ReferencePropertyType s true) := by
  rw [to_property_type_rec, extract_super_type_eq_none.mpr h]
  by_cases h1 : is_simple_type s
  · simp [h1]
  · by_cases h2 : is_number_type s
    · simp [h1, h2]
    · simp [h1, h2]

/-- Any two fuels strictly above the string's length give the same result:
each recursive call is on a string at least two characters shorter. -/
theorem to_property_type_rec_congr {f1 : Nat} :
    ∀ {f2 : Nat} {s : List Char}, s.length < f1 → s.length < f2 →
      to_property_type_rec f1 s = to_property_type_rec f2 s := by
  induction f1 using Nat.strong_induction_on with
  | _ f1 ih =>
    intro f2 s h1 h2
    cases f1 with
    | zero => omega
    | succ a =>
      cases f2 with
      | zero => omega
      | succ b =>
        rw [to_property_type_rec]
        conv_rhs => rw [to_property_type_rec]
        cases hsup : extract_super_type s with
        | none => rfl
        | some superType =>
          cases hsub : extract_sub_type s with
          | none => rfl
          | some subType =>
            obtain ⟨hnb, hlt⟩ := extract_sub_type_eq_some hsub
            by_cases ha : isArrayType superType
            · have e1 : to_property_type_rec a subType = to_property_type_rec b subType := by
                apply ih a (Nat.lt_succ_self a) <;> omega
              simp only [ha, if_pos, e1]
            · simp [ha]

/-- The fuel in `to_property_type` can be replaced by any sufficient fuel. -/
theorem to_property_type_eq_rec {f : Nat} {s : List Char} (h : s.length < f) :
    to_property_type s = to_property_type_rec f s :=
  to_property_type_rec_congr (Nat.lt_succ_self _) h

/-- Splitting on a predicate no element satisfies yields the single
original token. -/
theorem splitOnPred_eq_singleton {p : Char → Bool} {l : List Char}
    (h : ∀ c ∈ l, p c = false) : splitOnPred p l = [l] := by
  induction l with
  | nil => rfl
  | cons a rest ih =>
    have ha : p a = false := h a (List.mem_cons_self a rest)
    have ih2 := ih (fun c hc => h c (List.mem_cons_of_mem a hc))
    rw [splitOnPred, ha, ih2]
    rfl

/-- Folding `addProperty` appends the added properties in order. -/
theorem foldl_addProperty_properties (props : List SwaggerProperty) :
    ∀ doc : SwaggerDoc,
      (props.foldl SwaggerDoc.addProperty doc).properties = doc.properties ++ props := by
  induction props with
  | nil => intro doc; simp
  | cons p rest ih =>
    intro doc
    rw [List.foldl_cons, ih]
    simp [SwaggerDoc.addProperty]

/-- Folding `addProperty` appends exactly the names of the added properties
whose `required` flag is true, in order. -/
theorem foldl_addProperty_required (props : List SwaggerProperty) :
    ∀ doc : SwaggerDoc,
      (props.foldl SwaggerDoc.addProperty doc).requiredProperties
        = doc.requiredProperties
            ++ (props.filter (fun p => p.required)).map (fun p => p.property_name) := by
  induction props with
  | nil => intro doc; simp
  | cons p rest ih =>
    intro doc
    rw [List.foldl_cons, ih]
    by_cases hp : p.required = true
    · simp [SwaggerDoc.addProperty, hp, List.filter_cons]
    · simp [SwaggerDoc.addProperty, hp, List.filter_cons]

end ClassToSwagger

namespace ClassToSwagger

/-- C1: what the code actually does on `"Option[List[String]]"`.  The claim
says the resolver returns an Array schema whose element is Primitive
`"string"` with the required flag false; the greedy super-type regex
instead captures `"Option[List"` (so the Option wrapper is never seen and
`required` stays true), the sub-type regex captures `"String]"`, and the
resolver returns `Reference{"String]"}` with required true. -/
theorem claim_C1_code_eval :
    to_property_type "Option[List[String]]".data
      = some (PropertyType.reference "String]".data true) := by decide

/-- C2: what the code actually does on `"Option[List[Int]]"`.  The claim
says super-type extraction returns the outer identifier `"Option"` and
sub-type extraction the outermost bracket content `"List[Int]"`; because
both regexes anchor their greedy `.*` at the LAST `[`, the code instead
returns `"Option[List"` and `"Int]"`. -/
theorem claim_C2_code_eval :
    extract_super_type "Option[List[Int]]".data = some "Option[List".data ∧
    extract_sub_type "Option[List[Int]]".data = some "Int]".data :=
  ⟨by decide, by decide⟩

/-- C3: the resolver fails (raises the malformed-type-expression error,
modelled as `none`) if and only if an opening bracket is present in the
subject string but the sub-type extraction finds no matching outer closing
bracket; in particular it fails on `"Option["`, and on every other string
it returns a schema type. -/
theorem claim_C3 :
    (∀ s : List Char,
        to_property_type s = none ↔ ('[' ∈ s ∧ extract_sub_type s = none)) ∧
    to_property_type "Option[".data = none := by
  constructor
  · intro s
    rw [to_property_type, to_property_type_rec]
    cases hsup : extract_super_type s with
    | none =>
      have hnb : '[' ∉ s := extract_super_type_eq_none.mp hsup
      constructor
      · intro hcontra
        by_cases h1 : is_simple_type s = true <;> by_cases h2 : is_number_type s = true <;>
          simp [h1, h2] at hcontra
      · rintro ⟨hin, _⟩
        exact absurd hin hnb
    | some superType =>
      have hin : '[' ∈ s := by
        by_contra hh
        rw [extract_super_type_eq_none.mpr hh] at hsup
        cases hsup
      cases hsub : extract_sub_type s with
      | none => simp [hin]
      | some subType =>
        obtain ⟨hnb, hlt⟩ := extract_sub_type_eq_some hsub
        have hrec : to_property_type_rec s.length subType ≠ none := by
          have h1 : to_property_type_rec s.length subType
              = to_property_type_rec (subType.length + 1) subType :=
            to_property_type_rec_congr (by omega) (by omega)
          rw [h1, to_property_type_rec_leaf hnb]
          simp
        dsimp only
        constructor
        · intro hcontra
          by_cases ha : isArrayType superType = true
          · rw [if_pos ha] at hcontra
            cases hrec2 : to_property_type_rec s.length subType with
            | none => exact absurd hrec2 hrec
            | some items => rw [hrec2] at hcontra; simp at hcontra
          · rw [if_neg ha] at hcontra
            by_cases h1 : is_simple_type subType = true <;>
              by_cases h2 : is_number_type subType = true <;>
                simp [h1, h2] at hcontra
        · rintro ⟨_, hfalse⟩
          cases hfalse
  · rfl

/-- C4 counterexample: the raw record text `"Person,"` contains no `(` at
all, hence certainly no parenthesized parameter list, yet the assembler
accepts it and returns the empty document named `Person` instead of
failing with a malformed-record-expression error. -/
theorem claim_C4_counterexample :
    ('(' ∈ "Person,".data → False) ∧
    create_swagger_doc "Person,".data = Except.ok (SwaggerDoc.new "Person".data) :=
  ⟨by decide, by rfl⟩

/-- C4 (amended): the assembler fails with a malformed-record-expression
error whenever the raw text contains no delimiter character (`(`, `,`, `)`)
at all, and whenever the parameter currently being processed lacks a
`name:type` colon-delimited form; a missing parenthesized parameter list is
otherwise not rejected — `"Person,"` is accepted and yields the empty
document named `Person`. -/
theorem claim_C4_amended :
    (∀ s : List Char, (∀ c ∈ s, isDelim c = false) →
        create_swagger_doc s = Except.error SwaggerError.malformedRecord) ∧
    (∀ (result : SwaggerDoc) (parameter : List Char) (rest : List (List Char)),
        ':' ∉ stripDefault parameter →
        processParams result (parameter :: rest) = Except.error SwaggerError.malformedRecord) ∧
    create_swagger_doc "Person,".data = Except.ok (SwaggerDoc.new "Person".data) := by
  refine ⟨?_, ?_, by rfl⟩
  · intro s h
    rw [create_swagger_doc, splitDelims, splitOnPred_eq_singleton h]
    cases s with
    | nil => rfl
    | cons a rest => rfl
  · intro result parameter rest h
    have hsplit : splitColon (stripDefault parameter) = [stripDefault parameter] :=
      splitOnPred_eq_singleton (fun c hc => by
        rw [beq_eq_false_iff_ne]
        exact fun he => h (he ▸ hc))
    rw [processParams]
    rw [hsplit]

/-- C4 witness: a delimiter-free text, `"Person"`, makes the assembler fail
with the malformed-record-expression error. -/
theorem claim_C4_witness :
    (∀ c ∈ "Person".data, isDelim c = false) ∧
    create_swagger_doc "Person".data = Except.error SwaggerError.malformedRecord :=
  ⟨by decide, claim_C4_amended.1 "Person".data (by decide)⟩

/-- C5: a bracket-free identifier in none of the recognized sets (not
primitive, not numeric, not an array container, not the Option wrapper)
resolves without failure to a Reference carrying that identifier, with the
required flag true. -/
theorem claim_C5 (s : List Char) (h1 : '[' ∉ s) (h2 : is_simple_type s = false)
    (h3 : is_number_type s = false) (_h4 : isArrayType s = false)
    (_h5 : s ≠ "Option".data) :
    to_property_type s = some (PropertyType.reference s true) := by
  rw [to_property_type, to_property_type_rec_leaf h1]
  simp [h2, h3, ReferencePropertyType]

/-- C5 witness: the unrecognized identifier `"Foo"` resolves to
`Reference{"Foo"}` with required true. -/
theorem claim_C5_witness :
    ('[' ∉ "Foo".data ∧ is_simple_type "Foo".data = false ∧
      is_number_type "Foo".data = false ∧ isArrayType "Foo".data = false ∧
      "Foo".data ≠ "Option".data) ∧
    to_property_type "Foo".data = some (PropertyType.reference "Foo".data true) :=
  ⟨by decide,
    claim_C5 "Foo".data (by decide) (by decide) (by decide) (by decide) (by decide)⟩

/-- C6: each identifier of the numeric set resolves, with required true, to
exactly the (kind, format) pair of the fixed mapping — Int to
(integer, int32), Long to (integer, int64), Float to (number, float),
Double to (number, double) — and a numeric type string outside the mapping
keys defaults to kind `number` with no format. -/
theorem claim_C6 :
    to_property_type "Int".data
      = some (PropertyType.number "integer".data (some "int32".data) true) ∧
    to_property_type "Long".data
      = some (PropertyType.number "integer".data (some "int64".data) true) ∧
    to_property_type "Float".data
      = some (PropertyType.number "number".data (some "float".data) true) ∧
    to_property_type "Double".data
      = some (PropertyType.number "number".data (some "double".data) true) ∧
    ∀ (s : List Char) (required : Bool),
      lower s ≠ "int".data → lower s ≠ "long".data → lower s ≠ "float".data →
        lower s ≠ "double".data →
        NumberPropertyType s required = PropertyType.number "number".data none required := by
  refine ⟨by decide, by decide, by decide, by decide, ?_⟩
  intro s required h1 h2 h3 h4
  rw [NumberPropertyType]
  simp [h1, h2, h3, h4]

/-- C6 witness: the unmapped numeric-style string `"Short"` defaults to
kind `number` with no format. -/
theorem claim_C6_witness :
    (lower "Short".data ≠ "int".data ∧ lower "Short".data ≠ "long".data ∧
      lower "Short".data ≠ "float".data ∧ lower "Short".data ≠ "double".data) ∧
    NumberPropertyType "Short".data true = PropertyType.number "number".data none true :=
  ⟨by decide,
    claim_C6.2.2.2.2 "Short".data true (by decide) (by decide) (by decide) (by decide)⟩

/-- C7: each identifier of the primitive set {String, Char, Boolean}
resolves to a Primitive whose kind is its lowercase form, with the required
flag true. -/
theorem claim_C7 :
    to_property_type "String".data = some (PropertyType.simple "string".data true) ∧
    to_property_type "Char".data = some (PropertyType.simple "char".data true) ∧
    to_property_type "Boolean".data = some (PropertyType.simple "boolean".data true) :=
  ⟨by decide, by decide, by decide⟩

/-- C8: assembling `"Person(name:String,age:Int,nickname:Option[String])"`
yields the document named `Person` with exactly the three fields name, age,
nickname in that order and required-field names `["name", "age"]`. -/
theorem claim_C8 :
    create_swagger_doc "Person(name:String,age:Int,nickname:Option[String])".data
      = Except.ok
          ⟨"object".data, "Person".data,
            [⟨"name".data, PropertyType.simple "string".data true, true⟩,
             ⟨"age".data, PropertyType.number "integer".data (some "int32".data) true, true⟩,
             ⟨"nickname".data, PropertyType.simple "string".data false, false⟩],
            ["name".data, "age".data]⟩ := by rfl

/-- C9: for a document built by any sequence of `addProperty` calls on an
initially empty document, where each property's required flag is that of
its type (as the Record Assembler constructs them), the fields are exactly
the added properties in order, the required-field names are exactly the
names of the fields whose type's required flag is true in that order, and
hence they form an order-preserving subsequence of the field names. -/
theorem claim_C9 (className : List Char) (props : List SwaggerProperty)
    (h : ∀ p ∈ props, p.required = p.propertyType.required) :
    (buildDoc className props).properties = props ∧
    (buildDoc className props).requiredProperties
      = ((buildDoc className props).properties.filter
          (fun p => p.propertyType.required)).map (fun p => p.property_name) ∧
    List.Sublist (buildDoc className props).requiredProperties
      ((buildDoc className props).properties.map (fun p => p.property_name)) := by
  have hp : (buildDoc className props).properties = props := by
    rw [buildDoc, foldl_addProperty_properties]
    rfl
  have hfil : props.filter (fun p => p.required)
      = props.filter (fun p => p.propertyType.required) :=
    List.filter_congr (fun p hp2 => by rw [h p hp2])
  have hr : (buildDoc className props).requiredProperties
      = (props.filter (fun p => p.propertyType.required)).map (fun p => p.property_name) := by
    rw [buildDoc, foldl_addProperty_required, hfil]
    rfl
  refine ⟨hp, ?_, ?_⟩
  · rw [hr, hp]
  · rw [hr, hp]
    exact (List.filter_sublist _).map _

/-- C9 witness: a two-field document, one required and one optional. -/
theorem claim_C9_witness :
    (∀ p ∈ [SwaggerProperty.mk "name".data (SimplePropertyType "String".data true) true,
            SwaggerProperty.mk "nickname".data (SimplePropertyType "String".data false) false],
        p.required = p.propertyType.required) ∧
    ((buildDoc "Person".data
        [SwaggerProperty.mk "name".data (SimplePropertyType "String".data true) true,
         SwaggerProperty.mk "nickname".data (SimplePropertyType "String".data false) false]).properties
      = [SwaggerProperty.mk "name".data (SimplePropertyType "String".data true) true,
         SwaggerProperty.mk "nickname".data (SimplePropertyType "String".data false) false] ∧
     (buildDoc "Person".data
        [SwaggerProperty.mk "name".data (SimplePropertyType "String".data true) true,
         SwaggerProperty.mk "nickname".data (SimplePropertyType "String".data false) false]).requiredProperties
      = ((buildDoc "Person".data
            [SwaggerProperty.mk "name".data (SimplePropertyType "String".data true) true,
             SwaggerProperty.mk "nickname".data (SimplePropertyType "String".data false) false]).properties.filter
          (fun p => p.propertyType.required)).map (fun p => p.property_name) ∧
     List.Sublist
       (buildDoc "Person".data
          [SwaggerProperty.mk "name".data (SimplePropertyType "String".data true) true,
           SwaggerProperty.mk "nickname".data (SimplePropertyType "String".data false) false]).requiredProperties
       ((buildDoc "Person".data
          [SwaggerProperty.mk "name".data (SimplePropertyType "String".data true) true,
           SwaggerProperty.mk "nickname".data (SimplePropertyType "String".data false) false]).properties.map
         (fun p => p.property_name))) :=
  ⟨by decide, claim_C9 "Person".data _ (by decide)⟩

/-- C10: empty bracket content is accepted rather than rejected —
`"Option[]"` resolves to a Reference with empty target name and required
false, and `"List[]"` resolves to an Array whose element is a Reference
with empty target name. -/
theorem claim_C10 :
    to_property_type "Option[]".data = some (PropertyType.reference [] false) ∧
    to_property_type "List[]".data
      = some (PropertyType.array (PropertyType.reference [] true) true) :=
  ⟨by decide, by decide⟩

end ClassToSwagger
